import Mathlib

set_option maxRecDepth 8000

/-!
Formal model of the llm-tuning-lab data-shaping pipeline
(`lab/data_processor.py`, `lab/loader.py`, `lab/constants.py`).

Structured documents (Python/JSON values) are modelled by `JVal`;
JSON numbers are modelled as integers (the sessions and catalog in this
repository contain no non-integral numbers, whose platform float
formatting is outside the model).  `json.dumps` with default arguments
is modelled by `Json.dumps`, `json.dumps(…, indent=2)` by
`Json.dumpsIndent2`, and `json.loads` by the fueled parser `Json.parse`.
-/

/-- A structured-document (JSON) value.  Object fields are kept in
insertion order, as Python dicts do. -/
inductive JVal where
  | null
  | bool (b : Bool)
  | num (n : Int)
  | str (s : String)
  | arr (elems : List JVal)
  | obj (fields : List (String × JVal))

/-- Decimal digit character, `digitChar d` for `d < 10`. -/
def digitChar (d : Nat) : Char := Char.ofNat (48 + d)

/-- Decimal rendering of a natural number, most significant digit first.
Fueled so that the kernel can evaluate it; `fuel > n` is always enough. -/
def natDigitsF : Nat → Nat → List Char
  | 0, _ => []
  | f + 1, n => if n < 10 then [digitChar n] else natDigitsF f (n / 10) ++ [digitChar (n % 10)]

/-- Decimal rendering of a natural number (Python `str(n)` for `n ≥ 0`). -/
def natDigits (n : Nat) : List Char := natDigitsF (n + 1) n

/-- Decimal rendering of an integer (Python `str` of an `int`). -/
def intDigits (n : Int) : List Char :=
  if n < 0 then '-' :: natDigits n.natAbs else natDigits n.toNat

/-- Lowercase hexadecimal digit character, for `d < 16`. -/
def hexDigitChar (d : Nat) : Char :=
  if d < 10 then Char.ofNat (48 + d) else Char.ofNat (87 + d)

/-- Four lowercase hex digits of `n < 0x10000`, as in Python `"\\u%04x"`. -/
def hex4 (n : Nat) : List Char :=
  [hexDigitChar (n / 4096 % 16), hexDigitChar (n / 256 % 16),
   hexDigitChar (n / 16 % 16), hexDigitChar (n % 16)]

/-- The `\uXXXX` escape of a code point, using a surrogate pair for
code points at or above `0x10000`, as CPython `json` does with
`ensure_ascii=True`. -/
def uEscape (n : Nat) : List Char :=
  if n < 0x10000 then '\\' :: 'u' :: hex4 n
  else '\\' :: 'u' :: hex4 (0xD800 + (n - 0x10000) / 0x400) ++
       '\\' :: 'u' :: hex4 (0xDC00 + (n - 0x10000) % 0x400)

/-- Escape of one character inside a JSON string literal, following
CPython `json.encoder.py_encode_basestring_ascii`: the two-character
escapes of `ESCAPE_DCT`, `\uXXXX` for every other character outside
`0x20`–`0x7E`, and the character itself otherwise. -/
def escapeChar (c : Char) : List Char :=
  if c = '"' then ['\\', '"']
  else if c = '\\' then ['\\', '\\']
  else if c = '\x08' then ['\\', 'b']
  else if c = '\x0c' then ['\\', 'f']
  else if c = '\n' then ['\\', 'n']
  else if c = '\r' then ['\\', 'r']
  else if c = '\t' then ['\\', 't']
  else if c.toNat < 0x20 ∨ 0x7E < c.toNat then uEscape c.toNat
  else [c]

/-- Escape of a character sequence inside a JSON string literal. -/
def escapeList : List Char → List Char
  | [] => []
  | c :: cs => escapeChar c ++ escapeList cs

mutual

/-- `json.dumps` with default arguments (separators `", "` and `": "`,
no indentation), producing a character list. -/
def dumpVal : JVal → List Char
  | .null => "null".data
  | .bool true => "true".data
  | .bool false => "false".data
  | .num n => intDigits n
  | .str s => '"' :: escapeList s.data ++ ['"']
  | .arr [] => "[]".data
  | .arr (x :: xs) => '[' :: dumpVal x ++ dumpArrRest xs ++ [']']
  | .obj [] => "\x7b\x7d".data
  | .obj (f :: fs) => '\x7b' :: dumpField f ++ dumpObjRest fs ++ ['\x7d']

/-- One `"key": value` pair of a compact object dump. -/
def dumpField : String × JVal → List Char
  | (k, v) => '"' :: escapeList k.data ++ '"' :: ':' :: ' ' :: dumpVal v

/-- Remaining array elements of a compact dump, each preceded by `", "`. -/
def dumpArrRest : List JVal → List Char
  | [] => []
  | x :: xs => ',' :: ' ' :: dumpVal x ++ dumpArrRest xs

/-- Remaining object fields of a compact dump, each preceded by `", "`. -/
def dumpObjRest : List (String × JVal) → List Char
  | [] => []
  | f :: fs => ',' :: ' ' :: dumpField f ++ dumpObjRest fs

end

/-- Newline followed by the indentation of `lvl` levels of 2 spaces. -/
def nlIndent (lvl : Nat) : List Char := '\n' :: List.replicate (2 * lvl) ' '

mutual

/-- `json.dumps(…, indent=2)`: each container item on its own line,
item separator `","`, key separator `": "`, as CPython renders it. -/
def dumpIndVal : Nat → JVal → List Char
  | _, .null => "null".data
  | _, .bool true => "true".data
  | _, .bool false => "false".data
  | _, .num n => intDigits n
  | _, .str s => '"' :: escapeList s.data ++ ['"']
  | _, .arr [] => "[]".data
  | lvl, .arr (x :: xs) =>
      '[' :: nlIndent (lvl + 1) ++ dumpIndVal (lvl + 1) x ++
        dumpIndArrRest (lvl + 1) xs ++ nlIndent lvl ++ [']']
  | _, .obj [] => "\x7b\x7d".data
  | lvl, .obj (f :: fs) =>
      '\x7b' :: nlIndent (lvl + 1) ++ dumpIndField (lvl + 1) f ++
        dumpIndObjRest (lvl + 1) fs ++ nlIndent lvl ++ ['\x7d']

/-- One `"key": value` pair of an indented object dump. -/
def dumpIndField : Nat → String × JVal → List Char
  | lvl, (k, v) => '"' :: escapeList k.data ++ '"' :: ':' :: ' ' :: dumpIndVal lvl v

/-- Remaining array elements of an indented dump. -/
def dumpIndArrRest : Nat → List JVal → List Char
  | _, [] => []
  | lvl, x :: xs => ',' :: nlIndent lvl ++ dumpIndVal lvl x ++ dumpIndArrRest lvl xs

/-- Remaining object fields of an indented dump. -/
def dumpIndObjRest : Nat → List (String × JVal) → List Char
  | _, [] => []
  | lvl, f :: fs => ',' :: nlIndent lvl ++ dumpIndField lvl f ++ dumpIndObjRest lvl fs

end

/-- `json.dumps(v)` with default arguments: a single-line string. -/
def Json.dumps (v : JVal) : String := ⟨dumpVal v⟩

/-- `json.dumps(v, indent=2)`. -/
def Json.dumpsIndent2 (v : JVal) : String := ⟨dumpIndVal 0 v⟩

/-- The JSON whitespace characters accepted between tokens. -/
def isSpaceChar (c : Char) : Bool := c = ' ' ∨ c = '\t' ∨ c = '\n' ∨ c = '\r'

/-- Skip JSON whitespace. -/
def skipSpaces (cs : List Char) : List Char := cs.dropWhile isSpaceChar

/-- Value of a hexadecimal digit character. -/
def hexVal (c : Char) : Option Nat :=
  if 48 ≤ c.toNat ∧ c.toNat ≤ 57 then some (c.toNat - 48)
  else if 97 ≤ c.toNat ∧ c.toNat ≤ 102 then some (c.toNat - 87)
  else if 65 ≤ c.toNat ∧ c.toNat ≤ 70 then some (c.toNat - 55)
  else none

/-- Decode of a two-character JSON escape (other than `\uXXXX`). -/
def escDecode (e : Char) : Option Char :=
  if e = '"' then some '"'
  else if e = '\\' then some '\\'
  else if e = '/' then some '/'
  else if e = 'b' then some '\x08'
  else if e = 'f' then some '\x0c'
  else if e = 'n' then some '\n'
  else if e = 'r' then some '\r'
  else if e = 't' then some '\t'
  else none

/-- Read four hex digits as a number below `0x10000`. -/
def hex4Val (cs : List Char) : Option (Nat × List Char) :=
  match cs with
  | a :: b :: c :: d :: r =>
    match hexVal a, hexVal b, hexVal c, hexVal d with
    | some va, some vb, some vc, some vd => some (((va * 16 + vb) * 16 + vc) * 16 + vd, r)
    | _, _, _, _ => none
  | _ => none

/-- Decode one escape sequence after a backslash: a two-character
escape, or `\uXXXX` — recombining a surrogate pair into one code point
and rejecting lone surrogates (they are not Unicode scalar values). -/
def readEsc (cs : List Char) : Option (Char × List Char) :=
  match cs with
  | [] => none
  | 'u' :: r =>
    match hex4Val r with
    | none => none
    | some (n, r2) =>
      if n < 0xD800 ∨ 0xE000 ≤ n then some (Char.ofNat n, r2)
      else if n < 0xDC00 then
        match r2 with
        | '\\' :: 'u' :: r3 =>
          match hex4Val r3 with
          | some (m, r4) =>
            if 0xDC00 ≤ m ∧ m < 0xE000 then
              some (Char.ofNat (0x10000 + (n - 0xD800) * 0x400 + (m - 0xDC00)), r4)
            else none
          | none => none
        | _ => none
      else none
  | e :: r => (escDecode e).map (fun ec => (ec, r))

/-- Parse the body of a JSON string literal up to its closing quote,
returning the decoded characters and the remaining input.  Fueled; one
unit of fuel per decoded character is enough. -/
def parseStringChars : Nat → List Char → Option (List Char × List Char)
  | 0, _ => none
  | _ + 1, [] => none
  | f + 1, c :: r =>
    if c = '"' then some ([], r)
    else if c = '\\' then
      match readEsc r with
      | some (ec, r1) => (parseStringChars f r1).map (fun p => (ec :: p.1, p.2))
      | none => none
    else if c.toNat < 0x20 then none
    else (parseStringChars f r).map (fun p => (c :: p.1, p.2))

/-- Decimal digit test on a character. -/
def isDig (c : Char) : Bool := 48 ≤ c.toNat ∧ c.toNat ≤ 57

/-- Numeric value of a list of decimal digit characters. -/
def digitsVal (ds : List Char) : Nat := ds.foldl (fun a c => a * 10 + (c.toNat - 48)) 0

/-- Parse a run of decimal digits as a natural number.  A following
`.`, `e` or `E` would start a float, which the model does not cover,
so the parse is rejected there. -/
def parseNatPart (cs : List Char) : Option (Nat × List Char) :=
  let ds := cs.takeWhile isDig
  let r := cs.dropWhile isDig
  if ds.isEmpty then none
  else if r.head? = some '.' ∨ r.head? = some 'e' ∨ r.head? = some 'E' then none
  else some (digitsVal ds, r)

mutual

/-- Parse one JSON value.  Fueled; the length of the input is always
enough fuel. -/
def parseVal : Nat → List Char → Option (JVal × List Char)
  | 0, _ => none
  | f + 1, cs0 =>
    match skipSpaces cs0 with
    | 'n' :: 'u' :: 'l' :: 'l' :: r => some (.null, r)
    | 't' :: 'r' :: 'u' :: 'e' :: r => some (.bool true, r)
    | 'f' :: 'a' :: 'l' :: 's' :: 'e' :: r => some (.bool false, r)
    | '"' :: r => (parseStringChars (r.length + 1) r).map (fun p => (.str ⟨p.1⟩, p.2))
    | '[' :: r =>
      let r1 := skipSpaces r
      if r1.head? = some ']' then some (.arr [], r1.tail)
      else do
        let (v, r2) ← parseVal f r1
        let (vs, r3) ← parseArrTail f r2
        some (.arr (v :: vs), r3)
    | '\x7b' :: r =>
      let r1 := skipSpaces r
      if r1.head? = some '\x7d' then some (.obj [], r1.tail)
      else do
        let (fv, r2) ← parseField f r1
        let (fs, r3) ← parseObjTail f r2
        some (.obj (fv :: fs), r3)
    | '-' :: r => (parseNatPart r).map (fun p => (.num (-(p.1 : Int)), p.2))
    | cs => (parseNatPart cs).map (fun p => (.num (p.1 : Int), p.2))

/-- Parse the remaining elements of an array after the first one:
either the closing bracket or a comma followed by a value. -/
def parseArrTail : Nat → List Char → Option (List JVal × List Char)
  | 0, _ => none
  | f + 1, cs =>
    let cs1 := skipSpaces cs
    if cs1.head? = some ']' then some ([], cs1.tail)
    else if cs1.head? = some ',' then do
      let (v, r2) ← parseVal f cs1.tail
      let (vs, r3) ← parseArrTail f r2
      some (v :: vs, r3)
    else none

/-- Parse one `"key": value` field of an object. -/
def parseField : Nat → List Char → Option ((String × JVal) × List Char)
  | 0, _ => none
  | f + 1, cs =>
    match skipSpaces cs with
    | '"' :: r => do
      let (k, r1) ← parseStringChars (r.length + 1) r
      let r2 := skipSpaces r1
      if r2.head? = some ':' then do
        let (v, r3) ← parseVal f r2.tail
        some ((⟨k⟩, v), r3)
      else none
    | _ => none

/-- Parse the remaining fields of an object after the first one. -/
def parseObjTail : Nat → List Char → Option (List (String × JVal) × List Char)
  | 0, _ => none
  | f + 1, cs =>
    let cs1 := skipSpaces cs
    if cs1.head? = some '\x7d' then some ([], cs1.tail)
    else if cs1.head? = some ',' then do
      let (fv, r2) ← parseField f cs1.tail
      let (fs, r3) ← parseObjTail f r2
      some (fv :: fs, r3)
    else none

end

/-- `json.loads`: parse a whole string as one JSON value, allowing
trailing whitespace only. -/
def Json.parse (s : String) : Option JVal :=
  match parseVal (s.data.length + 1) s.data with
  | some (v, rest) => if skipSpaces rest = [] then some v else none
  | none => none

/-!
Pipeline model.  Exceptions that `process_session_turn` and the loader
machinery can raise are modelled by `PyErr`; the loader in
`load_training_data` catches exactly `json.JSONDecodeError` and
`KeyError`, every other exception propagates and aborts the stream.
-/

/-- The Python exceptions the pipeline can raise.  `typeError` stands
for both `TypeError` and `AttributeError` on wrongly-shaped values;
neither is caught by the loader, so the distinction is unobservable. -/
inductive PyErr where
  | keyError (k : String)
  | typeError
  | jsonDecodeError
  | fileNotFound (path : String)
  | valueError (msg : String)
deriving DecidableEq, Repr

/-- State of the tool catalogue file on disk, the input of
`load_tool_catalogue`: present and parseable, absent, or present but
not parseable as structured data. -/
inductive CatalogSource where
  | ok (doc : JVal)
  | missingFile
  | invalidJson

/-- `lab/loader.py` `load_tool_catalogue`: read and parse
`data/tool_catalogue.json`.  `open` raises `FileNotFoundError` when the
file is absent; `json.load` raises `json.JSONDecodeError` when it is
not parseable. -/
def load_tool_catalogue : CatalogSource → Except PyErr JVal
  | .ok doc => .ok doc
  | .missingFile => .error (.fileNotFound "tool_catalogue.json")
  | .invalidJson => .error .jsonDecodeError

/-- `lab/constants.py` `TOOL_PREAMBLE`, transcribed verbatim (a Python
triple-quoted string beginning and ending with a newline). -/
def TOOL_PREAMBLE : String :=
  "\n<TOOL_PREAMBLE>\nYou can optionally call tools. Available tools are provided in the tools section.\n\nFORMAT\n- To call a tool, output exactly one JSON object per tool call:\n  \x7b\"type\":\"tool_use\",\"id\":\"toolu_<unique_id>\",\"name\":\"<tool_name>\",\"input\":\x7b<parameters>\x7d\x7d\n- The \"id\" field must be unique for each tool call (e.g., \"toolu_01AbCdEfGhIjKlMnOp\")\n- The \"input\" field contains the tool parameters as a JSON object\n- If no tool is needed, write a normal assistant reply (no JSON).\n- You can make multiple tool calls in one response by outputting an array of tool_use objects\n- After a tool_result is shown in the conversation, ground your reply in that result. If another call is needed, emit new tool_use objects.\n\nRULES\n- Use only tools available in the provided tools catalog.\n- Parameters in \"input\" must be valid JSON and match the tool\x27s input_schema exactly (no extra keys).\n- Required parameters must always be provided; optional parameters can be omitted.\n- Parameters account_id, user_id, and session_id are auto-injected by the system - do not include them in your tool calls.\n- If the needed tool is missing, say so and propose a manual workaround.\n- Never fabricate tool results; only reason over provided tool_result blocks.\n- Prefer making all needed tool calls at once when possible; if multi-step reasoning is required, do it turn-by-turn.\n\nVALIDATION\n- If you receive a validator error (type=tool_error, name=_validator), correct the call and emit a new tool_use object.\n\nOUTPUT\n- Do not wrap the JSON in code fences or add commentary on the same line.\n- Choose a tool only when it adds essential info or executes an action.\n</TOOL_PREAMBLE>\n"

/-- `inject_system_additions`: prepend the tool preamble to the system
prompt when requested (`"\n\n".join([TOOL_PREAMBLE, system_prompt])`),
otherwise return the prompt unchanged. -/
def inject_system_additions (system_prompt : String) (inject_preamble : Bool) : String :=
  if !inject_preamble then system_prompt
  else TOOL_PREAMBLE ++ "\n\n" ++ system_prompt

/-- Python `d[k]` on a structured value: a `KeyError` on a dict without
the key, a `TypeError` on anything that is not a dict. -/
def pyIndex (j : JVal) (k : String) : Except PyErr JVal :=
  match j with
  | .obj fs =>
    match fs.lookup k with
    | some v => .ok v
    | none => .error (.keyError k)
  | _ => .error .typeError

/-- Python `d.get(k, dflt)`: the value when present, the default when
absent, an `AttributeError` (modelled as `typeError`) on a non-dict. -/
def pyGet (j : JVal) (k : String) (dflt : JVal) : Except PyErr JVal :=
  match j with
  | .obj fs => .ok ((fs.lookup k).getD dflt)
  | _ => .error .typeError

/-- Require a string.  CPython would instead stringify a non-string
via `str()` inside an f-string (or raise `TypeError` from `str.join`);
no session record exercises a non-string here, and the model rejects
the case. -/
def asStr : JVal → Except PyErr String
  | .str s => .ok s
  | _ => .error .typeError

/-- Require a sequence.  CPython iteration over a non-list here would
raise `TypeError` at the loop or at the element subscripts. -/
def asArr : JVal → Except PyErr (List JVal)
  | .arr xs => .ok xs
  | _ => .error .typeError

/-- Python `is None` test on a structured value. -/
def jIsNull : JVal → Bool
  | .null => true
  | _ => false

/-- Python truthiness of a structured value (`if tools:`). -/
def jTruthy : JVal → Bool
  | .null => false
  | .bool b => b
  | .num n => !(n == 0)
  | .str s => !s.isEmpty
  | .arr xs => !xs.isEmpty
  | .obj fs => !fs.isEmpty

/-- `isinstance(v, list)`. -/
def jIsArr : JVal → Bool
  | .arr _ => true
  | _ => false

/-- Lines 62–66 of `data_processor.py`: the turn's effective tools
value.  `tools = request.get("tools")`, replaced by the loaded
catalogue when catalog injection is on and the turn's own value is
null/absent. -/
def effective_tools (request : JVal) (inject_catalog : Bool) (cat : CatalogSource) :
    Except PyErr JVal := do
  let tools0 ← pyGet request "tools" .null
  if inject_catalog && jIsNull tools0 then load_tool_catalogue cat else pure tools0

/-- One conversation-message block
`f"<|\x7brole\x7d|>\n\x7bcontent\x7d\n<|end|>"`. -/
def msg_block (msg : JVal) : Except PyErr String := do
  let roleV ← pyIndex msg "role"
  let role ← asStr roleV
  let contentV ← pyIndex msg "content"
  let content ← asStr contentV
  pure ("<|" ++ role ++ "|>\n" ++ content ++ "\n<|end|>")

/-- The message blocks in arrival order (the `for msg in messages`
loop). -/
def build_msg_parts : List JVal → Except PyErr (List String)
  | [] => .ok []
  | m :: ms => do
    let b ← msg_block m
    let bs ← build_msg_parts ms
    .ok (b :: bs)

/-- The ordered `input_parts` list: the system block, then — only when
the effective tools value is truthy (`if tools:`) — the tools block
with the catalogue serialized at indent 2, then the message blocks. -/
def build_input_parts (enhanced_system : String) (tools : JVal) (msgParts : List String) :
    List String :=
  ("<|system|>\n" ++ enhanced_system ++ "\n<|end|>") ::
    ((if jTruthy tools then ["<|tools|>\n" ++ Json.dumpsIndent2 tools ++ "\n<|end|>"] else []) ++
      msgParts)

/-- The `metadata` dict of a training example. -/
structure Metadata where
  has_tools : Bool
  num_messages : Nat
  response_type : String
deriving DecidableEq, Repr

/-- A training example.  `output` is a `JVal` because the source stores
the response content itself when it is not a list (only a list is
serialized to a string). -/
structure TrainingExample where
  input : String
  output : JVal
  metadata : Metadata

/-- Lines 86–92 of `data_processor.py`: the output text.  A sequence
(tool-call form) is serialized as a single-line structured-document
string; any other content value is kept verbatim. -/
def formatOutput : JVal → JVal
  | .arr xs => .str (Json.dumps (.arr xs))
  | v => v

/-- Line 97 of `data_processor.py`: the `response_type` metadata
value. -/
def responseType (output_content : JVal) : String :=
  if jIsArr output_content then "tool_calls" else "text"

/-- `process_session_turn`: map one raw session turn to a training
example, following the source's evaluation order (`request`,
`response`, system + preamble, tools + catalogue, messages, input
text, output text, metadata). -/
def process_session_turn (turn_data : JVal) (inject_preamble : Bool := true)
    (inject_catalog : Bool := true) (cat : CatalogSource := .missingFile) :
    Except PyErr TrainingExample := do
  let request ← pyIndex turn_data "request"
  let response ← pyIndex turn_data "response"
  let sysV ← pyGet request "system" (.str "")
  let original_system ← asStr sysV
  let enhanced_system := inject_system_additions original_system inject_preamble
  let tools ← effective_tools request inject_catalog cat
  let messagesV ← pyGet request "messages" (.arr [])
  let messages ← asArr messagesV
  let msgParts ← build_msg_parts messages
  let input_text := String.intercalate "\n\n" (build_input_parts enhanced_system tools msgParts)
  let output_content ← pyGet response "content" (.str "")
  pure
    { input := input_text
      output := formatOutput output_content
      metadata :=
        { has_tools := !jIsNull tools
          num_messages := messages.length
          response_type := responseType output_content } }

/-- The response content a turn carries (`turn_data["response"]` then
`response.get("content", "")`), as `process_session_turn` reads it. -/
def turn_response_content (turn_data : JVal) : Except PyErr JVal := do
  let response ← pyIndex turn_data "response"
  pyGet response "content" (.str "")

/-- The effective tools value of a turn, as `process_session_turn`
resolves it. -/
def turn_effective_tools (turn_data : JVal) (inject_catalog : Bool) (cat : CatalogSource) :
    Except PyErr JVal := do
  let request ← pyIndex turn_data "request"
  effective_tools request inject_catalog cat

/-- The enhanced system prompt of a turn, as `process_session_turn`
computes it. -/
def turn_enhanced_system (turn_data : JVal) (inject_preamble : Bool) : Except PyErr String := do
  let request ← pyIndex turn_data "request"
  let sysV ← pyGet request "system" (.str "")
  let s ← asStr sysV
  pure (inject_system_additions s inject_preamble)

/-- The message blocks of a turn, as `process_session_turn` builds
them. -/
def turn_msg_parts (turn_data : JVal) : Except PyErr (List String) := do
  let request ← pyIndex turn_data "request"
  let messagesV ← pyGet request "messages" (.arr [])
  let messages ← asArr messagesV
  build_msg_parts messages

/-- The messages sequence of a turn's request. -/
def turn_messages (turn_data : JVal) : Except PyErr (List JVal) := do
  let request ← pyIndex turn_data "request"
  let messagesV ← pyGet request "messages" (.arr [])
  asArr messagesV

/-!
Corpus loader model (`load_session_files`, `load_training_data`).
The data directory is modelled as `Option (List SessionFile)` — `none`
when the directory does not exist — plus its name for error messages.
-/

/-- One newline-delimited session file: its name and its lines. -/
structure SessionFile where
  name : String
  lines : List String
deriving DecidableEq, Repr

/-- Shell-style glob matching with `*` and `?`, the fragment of
`pathlib.Path.glob` the repository's patterns (`*.jsonl`,
`*session*.jsonl`) use.  Fueled; `|pattern| + |name| + 1` is enough. -/
def globMatchF : Nat → List Char → List Char → Bool
  | 0, _, _ => false
  | _ + 1, [], [] => true
  | f + 1, '*' :: ps, [] => globMatchF f ps []
  | f + 1, '*' :: ps, c :: cs => globMatchF f ps (c :: cs) || globMatchF f ('*' :: ps) cs
  | f + 1, '?' :: ps, _ :: cs => globMatchF f ps cs
  | f + 1, p :: ps, c :: cs => p == c && globMatchF f ps cs
  | _ + 1, _ :: _, [] => false
  | _ + 1, [], _ :: _ => false

/-- Does a file name match a glob pattern. -/
def globMatch (pattern name : String) : Bool :=
  globMatchF (pattern.data.length + name.data.length + 1) pattern.data name.data

/-- Code-point lexicographic comparison of character lists, the order
Python string comparison uses. -/
def lexLe : List Char → List Char → Bool
  | [], _ => true
  | _ :: _, [] => false
  | a :: as, b :: bs =>
    if a.toNat < b.toNat then true
    else if b.toNat < a.toNat then false
    else lexLe as bs

/-- Lexicographic file order (`sorted(files)`; the files share the
directory prefix, so `Path` order is name order). -/
def fileLe (a b : SessionFile) : Prop := lexLe a.name.data b.name.data = true

instance : DecidableRel fileLe := fun a b => decEq (lexLe a.name.data b.name.data) true

/-- `load_session_files`: fail when the directory is missing, fail when
no file matches, otherwise return the matching files sorted. -/
def load_session_files (dir : Option (List SessionFile)) (data_dir : String)
    (pattern : String := "*.jsonl") : Except PyErr (List SessionFile) :=
  match dir with
  | none => .error (.fileNotFound ("Data directory not found: " ++ data_dir))
  | some files =>
    let matched := files.filter (fun f => globMatch pattern f.name)
    if matched.isEmpty then
      .error (.valueError ("No files found matching pattern: " ++ pattern ++ " in " ++ data_dir))
    else .ok (List.insertionSort fileLe matched)

/-- The reason a line was skipped with a warning: the message printed
is `"Warning: Skipping invalid JSON in …"` for a `json.JSONDecodeError`
and `"Warning: Missing required key in …"` for a `KeyError`. -/
inductive WarnKind where
  | invalidJson
  | missingKey (k : String)
deriving DecidableEq, Repr

/-- One logged warning, carrying the file path and 1-based line number
it identifies. -/
structure Warning where
  file : String
  lineNum : Nat
  kind : WarnKind
deriving DecidableEq, Repr

/-- Outcome of one line of a session file. -/
inductive LineOutcome where
  | skippedBlank
  | emitted (ex : TrainingExample)
  | warned (kind : WarnKind)
  | fatal (e : PyErr)

/-- One iteration of the line loop in `load_training_data`: skip blank
lines, parse, transform, and catch exactly `json.JSONDecodeError` and
`KeyError` — `jsonDecodeError` also reaches this handler when it was
raised by the catalogue load inside `process_session_turn`.  Every
other exception propagates. -/
def process_line (inject_preamble inject_catalog : Bool) (cat : CatalogSource)
    (line : String) : LineOutcome :=
  if line.data.all (fun c => c.isWhitespace) then .skippedBlank
  else
    match Json.parse line with
    | none => .warned .invalidJson
    | some turn_data =>
      match process_session_turn turn_data inject_preamble inject_catalog cat with
      | .ok ex => .emitted ex
      | .error (.keyError k) => .warned (.missingKey k)
      | .error .jsonDecodeError => .warned .invalidJson
      | .error e => .fatal e

/-- Is the outcome an uncaught exception. -/
def LineOutcome.isFatal : LineOutcome → Bool
  | .fatal _ => true
  | _ => false

/-- The example a line yields, if any. -/
def LineOutcome.toExample : LineOutcome → Option TrainingExample
  | .emitted ex => some ex
  | _ => none

/-- The warning a line logs, if any. -/
def LineOutcome.toWarn : LineOutcome → Option WarnKind
  | .warned k => some k
  | _ => none

/-- Stream one file line by line from `lineNum`, collecting the yielded
examples and logged warnings in order; an uncaught exception stops the
stream there. -/
def process_file (inject_preamble inject_catalog : Bool) (cat : CatalogSource)
    (fname : String) : List String → Nat →
    List TrainingExample × List Warning × Option PyErr
  | [], _ => ([], [], none)
  | line :: rest, lineNum =>
    match process_line inject_preamble inject_catalog cat line with
    | .skippedBlank => process_file inject_preamble inject_catalog cat fname rest (lineNum + 1)
    | .emitted ex =>
      let (es, ws, er) := process_file inject_preamble inject_catalog cat fname rest (lineNum + 1)
      (ex :: es, ws, er)
    | .warned k =>
      let (es, ws, er) := process_file inject_preamble inject_catalog cat fname rest (lineNum + 1)
      (es, ⟨fname, lineNum, k⟩ :: ws, er)
    | .fatal e => ([], [], some e)

/-- Stream a list of files in order; an uncaught exception stops the
stream. -/
def process_files (inject_preamble inject_catalog : Bool) (cat : CatalogSource) :
    List SessionFile → List TrainingExample × List Warning × Option PyErr
  | [] => ([], [], none)
  | f :: fs =>
    match process_file inject_preamble inject_catalog cat f.name f.lines 1 with
    | (es, ws, some e) => (es, ws, some e)
    | (es, ws, none) =>
      let (es2, ws2, er) := process_files inject_preamble inject_catalog cat fs
      (es ++ es2, ws ++ ws2, er)

/-- `load_training_data`: for each pattern resolve the files, then
stream them.  The triple collects, in order, the examples the generator
yields and the warnings it prints before it either finishes (`none`) or
raises (`some e`). -/
def load_training_data (dir : Option (List SessionFile)) (data_dir : String)
    (file_patterns : List String) (inject_preamble : Bool := true)
    (inject_catalog : Bool := true) (cat : CatalogSource := .missingFile) :
    List TrainingExample × List Warning × Option PyErr :=
  match file_patterns with
  | [] => ([], [], none)
  | p :: ps =>
    match load_session_files dir data_dir p with
    | .error e => ([], [], some e)
    | .ok files =>
      match process_files inject_preamble inject_catalog cat files with
      | (es, ws, some e) => (es, ws, some e)
      | (es, ws, none) =>
        let (es2, ws2, er) := load_training_data dir data_dir ps inject_preamble inject_catalog cat
        (es ++ es2, ws ++ ws2, er)

/-- A following input on which a greedy number parse stops: one that
does not continue a numeral. -/
def goodRest (cs : List Char) : Prop :=
  ∀ c, cs.head? = some c → isDig c = false ∧ c ≠ '.' ∧ c ≠ 'e' ∧ c ≠ 'E'

/-- Does `needle` occur contiguously inside `hay`. -/
def containsChars (hay needle : List Char) : Bool :=
  hay.tails.any (fun t => needle.isPrefixOf t)

/-- A small tool catalogue document, shaped like
`data/tool_catalogue.json`. -/
def sampleCatalog : JVal :=
  .arr [.obj [("name", .str "github_find_repositories"),
              ("description", .str "Search repositories"),
              ("input_schema", .obj [("type", .str "object")])]]

/-- Scenario A turn: scalar string response, null tools, one message. -/
def turnText : JVal :=
  .obj [("request", .obj [
          ("system", .str "You are a test assistant."),
          ("tools", .null),
          ("messages", .arr [.obj [("role", .str "user"), ("content", .str "Hello!")]])]),
        ("response", .obj [("role", .str "assistant"), ("content", .str "Hi there!")])]

/-- Scenario C turn: tool-call response. -/
def turnCalls : JVal :=
  .obj [("request", .obj [("system", .str "s"), ("tools", .null), ("messages", .arr [])]),
        ("response", .obj [("content", .arr [.obj [
          ("type", .str "tool_use"), ("id", .str "call_123"), ("name", .str "search"),
          ("input", .obj [("query", .str "test")])]])])]

/-- A turn whose own tools value is the empty sequence. -/
def turnEmptyTools : JVal :=
  .obj [("request", .obj [("tools", .arr []), ("messages", .arr [])]),
        ("response", .obj [("content", .str "x")])]

/-- A turn whose response object has no content field. -/
def turnNoContent : JVal :=
  .obj [("request", .obj [("messages", .arr [])]),
        ("response", .obj [("role", .str "assistant")])]

/-- A well-formed session line (`turnText` rendered compactly). -/
def lineGood : String := Json.dumps turnText

/-- A line that is not parseable as a structured document. -/
def lineBad : String := "not json"

/-- Scenario D session file: one valid line and one invalid line. -/
def fileD : SessionFile := ⟨"a_session.jsonl", [lineGood, lineBad]⟩

instance : IsTotal SessionFile fileLe :=
  ⟨by
    have htot : ∀ x y : List Char, lexLe x y = true ∨ lexLe y x = true := by
      intro x
      induction x with
      | nil => intro y; left; rfl
      | cons a as ih =>
        intro y
        cases y with
        | nil => right; rfl
        | cons b bs =>
          by_cases hab : a.toNat < b.toNat
          · left; simp [lexLe, hab]
          · by_cases hba : b.toNat < a.toNat
            · right; simp [lexLe, hba]
            · rcases ih bs with h | h
              · left; simp [lexLe, hab, hba, h]
              · right; simp [lexLe, hab, hba, h]
    exact fun a b => htot a.name.data b.name.data⟩

instance : IsTrans SessionFile fileLe :=
  ⟨by
    have htr : ∀ x y z : List Char, lexLe x y = true → lexLe y z = true → lexLe x z = true := by
      intro x
      induction x with
      | nil => intro y z _ _; rfl
      | cons a as ih =>
        intro y z hxy hyz
        cases y with
        | nil => simp [lexLe] at hxy
        | cons b bs =>
          cases z with
          | nil => simp [lexLe] at hyz
          | cons c cs =>
            simp only [lexLe] at hxy hyz ⊢
            split_ifs at hxy hyz ⊢ with h1 h2 h3 h4 h5 h6
            all_goals first
              | rfl
              | omega
              | (exact ih bs cs hxy hyz)
    exact fun a b c hab hbc => htr a.name.data b.name.data c.name.data hab hbc⟩

/-- The tool-call sequence inside `turnCalls`. -/
def callsSeq : List JVal :=
  [.obj [("type", .str "tool_use"), ("id", .str "call_123"), ("name", .str "search"),
         ("input", .obj [("query", .str "test")])]]

/-- The training example `turnCalls` maps to with both flags off. -/
def callsExample : TrainingExample :=
  { input := "<|system|>\ns\n<|end|>"
    output := .str "[\x7b\"type\": \"tool_use\", \"id\": \"call_123\", \"name\": \"search\", \"input\": \x7b\"query\": \"test\"\x7d\x7d]"
    metadata := { has_tools := false, num_messages := 0, response_type := "tool_calls" } }

/-- The training example `turnText` maps to with both flags off. -/
def textExample : TrainingExample :=
  { input := "<|system|>\nYou are a test assistant.\n<|end|>\n\n<|user|>\nHello!\n<|end|>"
    output := .str "Hi there!"
    metadata := { has_tools := false, num_messages := 1, response_type := "text" } }

/-- The training example `turnEmptyTools` maps to with both flags off. -/
def emptyToolsExample : TrainingExample :=
  { input := "<|system|>\n\n<|end|>"
    output := .str "x"
    metadata := { has_tools := true, num_messages := 0, response_type := "text" } }

/-- The training example `turnNoContent` maps to with both flags off. -/
def noContentExample : TrainingExample :=
  { input := "<|system|>\n\n<|end|>"
    output := .str ""
    metadata := { has_tools := false, num_messages := 0, response_type := "text" } }

/-- A turn that supplies its own non-empty tools value. -/
def turnWithTools : JVal :=
  .obj [("request", .obj [("tools", .arr [.str "t"]), ("messages", .arr [])]),
        ("response", .obj [("content", .str "y")])]

/-- The training example `turnWithTools` maps to with both flags off. -/
def withToolsExample : TrainingExample :=
  { input := "<|system|>\n\n<|end|>\n\n<|tools|>\n[\n  \"t\"\n]\n<|end|>"
    output := .str "y"
    metadata := { has_tools := true, num_messages := 0, response_type := "text" } }

/-- A session line whose turn has no tools value, so processing it with
catalog injection on must load the catalogue. -/
def lineNeedsCatalog : String :=
  Json.dumps (.obj [("request", .obj [("messages", .arr [])]),
                    ("response", .obj [("content", .str "ok")])])

/-!
Lemmas.  The development culminates in `Json.parse_dumps` (the
serializer round-trip) and the claim theorems about the pipeline.
-/

theorem exbind_ok_iff {ε α β : Type} (x : Except ε α) (f : α → Except ε β) (b : β) :
    (x >>= f) = .ok b ↔ ∃ a, x = .ok a ∧ f a = .ok b := by
  cases x <;> simp [Bind.bind, Except.bind]

theorem skipSpaces_cons_of_not {c : Char} (cs : List Char) (h : isSpaceChar c = false) :
    skipSpaces (c :: cs) = c :: cs := by
  simp [skipSpaces, List.dropWhile_cons, h]

theorem skipSpaces_cons_of_space {c : Char} (cs : List Char) (h : isSpaceChar c = true) :
    skipSpaces (c :: cs) = skipSpaces cs := by
  simp [skipSpaces, List.dropWhile_cons, h]

theorem digitChar_toNat : ∀ d, d < 10 → (digitChar d).toNat = 48 + d := by decide

theorem digitChar_facts : ∀ d, d < 10 →
    isDig (digitChar d) = true ∧ isSpaceChar (digitChar d) = false ∧
    digitChar d ≠ ']' ∧ digitChar d ≠ '\x7d' ∧ digitChar d ≠ ',' ∧ digitChar d ≠ '\n' := by
  decide

theorem natDigitsF_sound : ∀ f n, n < f →
    natDigitsF f n ≠ [] ∧ (∀ c ∈ natDigitsF f n, ∃ d, d < 10 ∧ c = digitChar d) ∧
      digitsVal (natDigitsF f n) = n := by
  intro f
  induction f with
  | zero => omega
  | succ f ih =>
    intro n hn
    by_cases h10 : n < 10
    · refine ⟨by simp [natDigitsF, h10], ?_, ?_⟩
      · intro c hc
        simp [natDigitsF, h10] at hc
        exact ⟨n, h10, hc⟩
      · simp [natDigitsF, h10, digitsVal, digitChar_toNat n h10]
    · have hdiv : n / 10 < f := by
        have h1 : n / 10 < n := Nat.div_lt_self (by omega) (by omega)
        omega
      obtain ⟨hne, hmem, hval⟩ := ih (n / 10) hdiv
      refine ⟨by simp [natDigitsF, h10], ?_, ?_⟩
      · intro c hc
        simp only [natDigitsF, if_neg h10, List.mem_append, List.mem_singleton] at hc
        rcases hc with hc | hc
        · exact hmem c hc
        · exact ⟨n % 10, by omega, hc⟩
      · have hm : (digitChar (n % 10)).toNat = 48 + n % 10 := digitChar_toNat _ (by omega)
        simp only [natDigitsF, if_neg h10, digitsVal, List.foldl_append, List.foldl_cons,
          List.foldl_nil]
        have : (natDigitsF f (n / 10)).foldl (fun a c => a * 10 + (c.toNat - 48)) 0 = n / 10 :=
          hval
        rw [this, hm]
        omega

theorem natDigits_sound (n : Nat) :
    natDigits n ≠ [] ∧ (∀ c ∈ natDigits n, ∃ d, d < 10 ∧ c = digitChar d) ∧
      digitsVal (natDigits n) = n :=
  natDigitsF_sound (n + 1) n (Nat.lt_succ_self n)

theorem takeWhile_dropWhile_split {p : Char → Bool} :
    ∀ (l₁ l₂ : List Char), (∀ c ∈ l₁, p c = true) → (∀ c, l₂.head? = some c → p c = false) →
      (l₁ ++ l₂).takeWhile p = l₁ ∧ (l₁ ++ l₂).dropWhile p = l₂ := by
  intro l₁
  induction l₁ with
  | nil =>
    intro l₂ _ h2
    cases l₂ with
    | nil => simp
    | cons c cs =>
      have hc := h2 c rfl
      simp [List.takeWhile_cons, List.dropWhile_cons, hc]
  | cons c cs ih =>
    intro l₂ h1 h2
    have hc : p c = true := h1 c (by simp)
    have := ih l₂ (fun x hx => h1 x (by simp [hx])) h2
    simp [List.takeWhile_cons, List.dropWhile_cons, hc, this.1, this.2]

theorem parseNatPart_natDigits (n : Nat) (rest : List Char) (hrest : goodRest rest) :
    parseNatPart (natDigits n ++ rest) = some (n, rest) := by
  obtain ⟨hne, hmem, hval⟩ := natDigits_sound n
  have hdig : ∀ c ∈ natDigits n, isDig c = true := by
    intro c hc
    obtain ⟨d, hd, rfl⟩ := hmem c hc
    exact (digitChar_facts d hd).1
  have hstop : ∀ c, rest.head? = some c → isDig c = false := fun c hc => (hrest c hc).1
  obtain ⟨htw, hdw⟩ := takeWhile_dropWhile_split (natDigits n) rest hdig hstop
  have hne' : (natDigits n).isEmpty = false := by
    cases h : natDigits n with
    | nil => exact absurd h hne
    | cons a l => rfl
  have hflt : ¬ (rest.head? = some '.' ∨ rest.head? = some 'e' ∨ rest.head? = some 'E') := by
    intro hcase
    rcases hcase with h | h | h <;> simpa using (hrest _ h).2
  unfold parseNatPart
  simp only [htw, hdw, hne', Bool.false_eq_true, if_false]
  rw [if_neg hflt, hval]

theorem hexVal_hexDigitChar : ∀ d, d < 16 → hexVal (hexDigitChar d) = some d := by decide

theorem char_valid_nat (c : Char) : c.toNat < 0xD800 ∨ (0xE000 ≤ c.toNat ∧ c.toNat < 0x110000) :=
  c.valid

theorem hex4Val_hex4 (n : Nat) (h : n < 0x10000) (rest : List Char) :
    hex4Val (hex4 n ++ rest) = some (n, rest) := by
  have e1 : hexVal (hexDigitChar (n / 4096 % 16)) = some (n / 4096 % 16) :=
    hexVal_hexDigitChar _ (by omega)
  have e2 : hexVal (hexDigitChar (n / 256 % 16)) = some (n / 256 % 16) :=
    hexVal_hexDigitChar _ (by omega)
  have e3 : hexVal (hexDigitChar (n / 16 % 16)) = some (n / 16 % 16) :=
    hexVal_hexDigitChar _ (by omega)
  have e4 : hexVal (hexDigitChar (n % 16)) = some (n % 16) :=
    hexVal_hexDigitChar _ (by omega)
  have hn : ((n / 4096 % 16 * 16 + n / 256 % 16) * 16 + n / 16 % 16) * 16 + n % 16 = n := by
    omega
  simp [hex4, hex4Val, e1, e2, e3, e4, hn]

theorem readEsc_uEscape (c : Char) (tail : List Char) :
    ∃ rest, uEscape c.toNat ++ tail = '\\' :: rest ∧ readEsc rest = some (c, tail) := by
  have hvalid := char_valid_nat c
  by_cases hbmp : c.toNat < 0x10000
  · refine ⟨'u' :: (hex4 c.toNat ++ tail), ?_, ?_⟩
    · rw [uEscape, if_pos hbmp]
      simp
    · rw [readEsc]
      simp only [hex4Val_hex4 c.toNat hbmp tail]
      rw [if_pos (show c.toNat < 0xD800 ∨ 0xE000 ≤ c.toNat by omega), Char.ofNat_toNat]
  · refine ⟨'u' :: (hex4 (0xD800 + (c.toNat - 0x10000) / 0x400) ++
      ('\\' :: 'u' :: (hex4 (0xDC00 + (c.toNat - 0x10000) % 0x400) ++ tail))), ?_, ?_⟩
    · rw [uEscape, if_neg hbmp]
      simp
    · rw [readEsc]
      simp only [hex4Val_hex4 (0xD800 + (c.toNat - 0x10000) / 0x400) (by omega)
        ('\\' :: 'u' :: (hex4 (0xDC00 + (c.toNat - 0x10000) % 0x400) ++ tail))]
      rw [if_neg (show ¬ (0xD800 + (c.toNat - 0x10000) / 0x400 < 0xD800 ∨
            0xE000 ≤ 0xD800 + (c.toNat - 0x10000) / 0x400) by omega),
        if_pos (show 0xD800 + (c.toNat - 0x10000) / 0x400 < 0xDC00 by omega)]
      simp only [hex4Val_hex4 (0xDC00 + (c.toNat - 0x10000) % 0x400) (by omega) tail]
      rw [if_pos (show 0xDC00 ≤ 0xDC00 + (c.toNat - 0x10000) % 0x400 ∧
            0xDC00 + (c.toNat - 0x10000) % 0x400 < 0xE000 by omega)]
      have hcomb : 0x10000 + (0xD800 + (c.toNat - 0x10000) / 0x400 - 0xD800) * 0x400 +
          (0xDC00 + (c.toNat - 0x10000) % 0x400 - 0xDC00) = c.toNat := by omega
      rw [hcomb, Char.ofNat_toNat]

theorem psc_char (c : Char) (f : Nat) (tail : List Char) :
    parseStringChars (f + 1) (escapeChar c ++ tail) =
      (parseStringChars f tail).map (fun p => (c :: p.1, p.2)) := by
  by_cases h1 : c = '"'
  · subst h1; simp [escapeChar, parseStringChars, readEsc, escDecode]
  by_cases h2 : c = '\\'
  · subst h2; simp [escapeChar, parseStringChars, readEsc, escDecode]
  by_cases h3 : c = '\x08'
  · subst h3; simp [escapeChar, parseStringChars, readEsc, escDecode]
  by_cases h4 : c = '\x0c'
  · subst h4; simp [escapeChar, parseStringChars, readEsc, escDecode]
  by_cases h5 : c = '\n'
  · subst h5; simp [escapeChar, parseStringChars, readEsc, escDecode]
  by_cases h6 : c = '\r'
  · subst h6; simp [escapeChar, parseStringChars, readEsc, escDecode]
  by_cases h7 : c = '\t'
  · subst h7; simp [escapeChar, parseStringChars, readEsc, escDecode]
  by_cases hu : c.toNat < 0x20 ∨ 0x7E < c.toNat
  · rw [escapeChar, if_neg h1, if_neg h2, if_neg h3, if_neg h4, if_neg h5, if_neg h6,
      if_neg h7, if_pos hu]
    obtain ⟨rest, hsplit, hread⟩ := readEsc_uEscape c tail
    rw [hsplit, parseStringChars]
    simp only [Char.reduceEq, reduceIte, hread]
  · rw [escapeChar, if_neg h1, if_neg h2, if_neg h3, if_neg h4, if_neg h5, if_neg h6,
      if_neg h7, if_neg hu]
    simp only [List.cons_append, List.nil_append]
    rw [parseStringChars, if_neg h1, if_neg h2, if_neg (by omega : ¬ c.toNat < 0x20)]

theorem escapeChar_ne_nil (c : Char) : escapeChar c ≠ [] := by
  unfold escapeChar uEscape
  split_ifs <;> simp

theorem psc_escape : ∀ (l : List Char) (fuel : Nat) (rest : List Char),
    (escapeList l).length < fuel →
    parseStringChars fuel (escapeList l ++ '"' :: rest) = some (l, rest) := by
  intro l
  induction l with
  | nil =>
    intro fuel rest hf
    cases fuel with
    | zero => omega
    | succ f => simp [escapeList, parseStringChars]
  | cons c cs ih =>
    intro fuel rest hf
    have hpos : 0 < (escapeChar c).length := by
      cases h : escapeChar c with
      | nil => exact absurd h (escapeChar_ne_nil c)
      | cons a l => simp
    cases fuel with
    | zero => omega
    | succ f =>
      have hlen : (escapeList cs).length < f := by
        simp only [escapeList, List.length_append] at hf ⊢
        omega
      rw [escapeList, List.append_assoc, psc_char c f _, ih f rest hlen]
      rfl

theorem goodRest_nil : goodRest [] := by
  intro c hc
  simp at hc

theorem goodRest_cons {c : Char} (cs : List Char) (h1 : isDig c = false) (h2 : c ≠ '.')
    (h3 : c ≠ 'e') (h4 : c ≠ 'E') : goodRest (c :: cs) := by
  intro c' hc'
  simp at hc'
  subst hc'
  exact ⟨h1, h2, h3, h4⟩

theorem goodRest_dumpArrRest (xs : List JVal) (rest : List Char) :
    goodRest (dumpArrRest xs ++ ']' :: rest) := by
  cases xs with
  | nil => exact goodRest_cons _ (by decide) (by decide) (by decide) (by decide)
  | cons y ys =>
    rw [dumpArrRest]
    simp only [List.cons_append]
    exact goodRest_cons _ (by decide) (by decide) (by decide) (by decide)

theorem goodRest_dumpObjRest (fs : List (String × JVal)) (rest : List Char) :
    goodRest (dumpObjRest fs ++ '\x7d' :: rest) := by
  cases fs with
  | nil => exact goodRest_cons _ (by decide) (by decide) (by decide) (by decide)
  | cons g gs =>
    rw [dumpObjRest]
    simp only [List.cons_append]
    exact goodRest_cons _ (by decide) (by decide) (by decide) (by decide)

theorem natDigits_head (n : Nat) :
    ∃ d t, d < 10 ∧ natDigits n = digitChar d :: t := by
  obtain ⟨hne, hmem, -⟩ := natDigits_sound n
  cases h : natDigits n with
  | nil => exact absurd h hne
  | cons a t =>
    obtain ⟨d, hd, rfl⟩ := hmem a (by rw [h]; simp)
    exact ⟨d, t, hd, rfl⟩

theorem digitChar_route : ∀ d, d < 10 →
    digitChar d ≠ 'n' ∧ digitChar d ≠ 't' ∧ digitChar d ≠ 'f' ∧ digitChar d ≠ '"' ∧
    digitChar d ≠ '[' ∧ digitChar d ≠ '\x7b' ∧ digitChar d ≠ '-' := by
  decide

theorem dumpVal_head (v : JVal) :
    ∃ c t, dumpVal v = c :: t ∧ isSpaceChar c = false ∧ c ≠ ']' ∧ c ≠ '\x7d' := by
  cases v with
  | null => exact ⟨'n', ['u', 'l', 'l'], rfl, by decide, by decide, by decide⟩
  | bool b =>
    cases b with
    | true => exact ⟨'t', ['r', 'u', 'e'], rfl, by decide, by decide, by decide⟩
    | false => exact ⟨'f', ['a', 'l', 's', 'e'], rfl, by decide, by decide, by decide⟩
  | num n =>
    by_cases h : n < 0
    · exact ⟨'-', natDigits n.natAbs, by rw [dumpVal, intDigits, if_pos h], by decide,
        by decide, by decide⟩
    · obtain ⟨d, t, hd, ht⟩ := natDigits_head n.toNat
      refine ⟨digitChar d, t, ?_, (digitChar_facts d hd).2.1, (digitChar_facts d hd).2.2.1,
        (digitChar_facts d hd).2.2.2.1⟩
      rw [dumpVal, intDigits, if_neg h, ht]
  | str s => exact ⟨'"', escapeList s.data ++ ['"'], rfl, by decide, by decide, by decide⟩
  | arr xs =>
    cases xs with
    | nil => exact ⟨'[', [']'], rfl, by decide, by decide, by decide⟩
    | cons x xs =>
      exact ⟨'[', dumpVal x ++ dumpArrRest xs ++ [']'], rfl, by decide, by decide, by decide⟩
  | obj fs =>
    cases fs with
    | nil => exact ⟨'\x7b', ['\x7d'], rfl, by decide, by decide, by decide⟩
    | cons g gs =>
      exact ⟨'\x7b', dumpField g ++ dumpObjRest gs ++ ['\x7d'], rfl, by decide, by decide,
        by decide⟩

theorem parseVal_cons_space (f : Nat) {c : Char} (cs : List Char) (h : isSpaceChar c = true) :
    parseVal f (c :: cs) = parseVal f cs := by
  cases f with
  | zero => rfl
  | succ f => simp only [parseVal, skipSpaces_cons_of_space cs h]

theorem parseField_cons_space (f : Nat) {c : Char} (cs : List Char) (h : isSpaceChar c = true) :
    parseField f (c :: cs) = parseField f cs := by
  cases f with
  | zero => rfl
  | succ f => simp only [parseField, skipSpaces_cons_of_space cs h]

theorem parseVal_digit (f : Nat) {d : Nat} (hd : d < 10) (t : List Char) :
    parseVal (f + 1) (digitChar d :: t) =
      (parseNatPart (digitChar d :: t)).map (fun p => (JVal.num (p.1 : Int), p.2)) := by
  obtain ⟨r1, r2, r3, r4, r5, r6, r7⟩ := digitChar_route d hd
  simp only [parseVal]
  rw [skipSpaces_cons_of_not _ ((digitChar_facts d hd).2.1)]
  split
  · rename_i heq; exfalso; simp only [List.cons.injEq] at heq; exact r1 heq.1
  · rename_i heq; exfalso; simp only [List.cons.injEq] at heq; exact r2 heq.1
  · rename_i heq; exfalso; simp only [List.cons.injEq] at heq; exact r3 heq.1
  · rename_i heq; exfalso; simp only [List.cons.injEq] at heq; exact r4 heq.1
  · rename_i heq; exfalso; simp only [List.cons.injEq] at heq; exact r5 heq.1
  · rename_i heq; exfalso; simp only [List.cons.injEq] at heq; exact r6 heq.1
  · rename_i heq; exfalso; simp only [List.cons.injEq] at heq; exact r7 heq.1
  · rfl

theorem parse_dump_all : ∀ fuel : Nat,
    (∀ v rest, (dumpVal v).length < fuel → goodRest rest →
      parseVal fuel (dumpVal v ++ rest) = some (v, rest)) ∧
    (∀ k v rest, (dumpField (k, v)).length < fuel → goodRest rest →
      parseField fuel (dumpField (k, v) ++ rest) = some ((k, v), rest)) ∧
    (∀ xs rest, (dumpArrRest xs).length + 1 ≤ fuel →
      parseArrTail fuel (dumpArrRest xs ++ ']' :: rest) = some (xs, rest)) ∧
    (∀ fs rest, (dumpObjRest fs).length + 1 ≤ fuel →
      parseObjTail fuel (dumpObjRest fs ++ '\x7d' :: rest) = some (fs, rest)) := by
  intro fuel
  induction fuel with
  | zero =>
    refine ⟨?_, ?_, ?_, ?_⟩
    · intro v rest h _; omega
    · intro k v rest h _; omega
    · intro xs rest h; omega
    · intro fs rest h; omega
  | succ f ih =>
    obtain ⟨ihV, ihF, ihA, ihO⟩ := ih
    refine ⟨?_, ?_, ?_, ?_⟩
    · intro v rest hlen hrest
      cases v with
      | null =>
        show parseVal (f + 1) ('n' :: 'u' :: 'l' :: 'l' :: rest) = some (.null, rest)
        simp [parseVal, skipSpaces, List.dropWhile_cons, isSpaceChar]
      | bool b =>
        cases b with
        | true =>
          show parseVal (f + 1) ('t' :: 'r' :: 'u' :: 'e' :: rest) = some (.bool true, rest)
          simp [parseVal, skipSpaces, List.dropWhile_cons, isSpaceChar]
        | false =>
          show parseVal (f + 1) ('f' :: 'a' :: 'l' :: 's' :: 'e' :: rest) =
            some (.bool false, rest)
          simp [parseVal, skipSpaces, List.dropWhile_cons, isSpaceChar]
      | num n =>
        by_cases hneg : n < 0
        · have hD : dumpVal (.num n) ++ rest = '-' :: (natDigits n.natAbs ++ rest) := by
            rw [dumpVal, intDigits, if_pos hneg]
            simp
          rw [hD]
          simp only [parseVal]
          rw [skipSpaces_cons_of_not _ (by decide)]
          simp [parseNatPart_natDigits n.natAbs rest hrest]
          rw [abs_of_neg hneg, neg_neg]
        · obtain ⟨d, t, hd, ht⟩ := natDigits_head n.toNat
          have hD : dumpVal (.num n) ++ rest = digitChar d :: (t ++ rest) := by
            rw [dumpVal, intDigits, if_neg hneg, ht]
            simp
          rw [hD, parseVal_digit f hd]
          have hb : digitChar d :: (t ++ rest) = natDigits n.toNat ++ rest := by
            rw [ht]
            simp
          rw [hb, parseNatPart_natDigits n.toNat rest hrest]
          have hcast : ((n.toNat : Nat) : Int) = n := by omega
          simp [hcast]
      | str s =>
        have hD : dumpVal (.str s) ++ rest = '"' :: (escapeList s.data ++ '"' :: rest) := by
          rw [dumpVal]
          simp
        rw [hD]
        simp only [parseVal]
        rw [skipSpaces_cons_of_not _ (by decide)]
        simp
        exact ⟨s.data, psc_escape _ _ _ (by omega), rfl⟩
      | arr xs =>
        cases xs with
        | nil =>
          show parseVal (f + 1) ('[' :: ']' :: rest) = some (.arr [], rest)
          simp [parseVal, skipSpaces, List.dropWhile_cons, isSpaceChar]
        | cons x xs =>
          have hD : dumpVal (.arr (x :: xs)) ++ rest =
              '[' :: (dumpVal x ++ (dumpArrRest xs ++ ']' :: rest)) := by
            rw [dumpVal]
            simp
          rw [dumpVal] at hlen
          simp only [List.length_cons, List.length_append] at hlen
          rw [hD]
          simp only [parseVal]
          rw [skipSpaces_cons_of_not _ (by decide)]
          obtain ⟨c, t, hct, hcs, hcb, hcb2⟩ := dumpVal_head x
          rw [hct]
          simp only [List.cons_append]
          rw [skipSpaces_cons_of_not _ hcs]
          rw [if_neg (by simp [hcb])]
          rw [← List.cons_append, ← hct]
          rw [ihV x _ (by omega) (goodRest_dumpArrRest xs rest)]
          simp only [Option.pure_def, Option.bind_eq_bind, Option.some_bind]
          rw [ihA xs rest (by omega)]
          rfl
      | obj fs =>
        cases fs with
        | nil =>
          show parseVal (f + 1) ('\x7b' :: '\x7d' :: rest) = some (.obj [], rest)
          simp [parseVal, skipSpaces, List.dropWhile_cons, isSpaceChar]
        | cons g gs =>
          obtain ⟨k, v⟩ := g
          have hD : dumpVal (.obj ((k, v) :: gs)) ++ rest =
              '\x7b' :: (dumpField (k, v) ++ (dumpObjRest gs ++ '\x7d' :: rest)) := by
            rw [dumpVal]
            simp
          rw [dumpVal] at hlen
          simp only [List.length_cons, List.length_append] at hlen
          rw [hD]
          simp only [parseVal]
          rw [skipSpaces_cons_of_not _ (by decide)]
          have hfh : dumpField (k, v) =
              '"' :: (escapeList k.data ++ '"' :: ':' :: ' ' :: dumpVal v) := rfl
          rw [hfh]
          simp only [List.cons_append]
          rw [skipSpaces_cons_of_not _ (by decide)]
          rw [if_neg (by simp)]
          rw [← List.cons_append, ← hfh]
          rw [ihF k v _ (by omega) (goodRest_dumpObjRest gs rest)]
          simp only [Option.pure_def, Option.bind_eq_bind, Option.some_bind]
          rw [ihO gs rest (by omega)]
          rfl
    · intro k v rest hlen hrest
      have hD : dumpField (k, v) ++ rest =
          '"' :: (escapeList k.data ++ '"' :: (':' :: ' ' :: (dumpVal v ++ rest))) := by
        rw [dumpField]
        simp
      rw [dumpField] at hlen
      simp only [List.length_cons, List.length_append] at hlen
      rw [hD]
      simp only [parseField]
      rw [skipSpaces_cons_of_not _ (by decide)]
      simp only [psc_escape k.data ((escapeList k.data ++ '"' :: (':' :: ' ' :: (dumpVal v ++
        rest))).length + 1) (':' :: ' ' :: (dumpVal v ++ rest))
        (by simp only [List.length_append, List.length_cons]; omega)]
      simp only [Option.pure_def, Option.bind_eq_bind, Option.some_bind]
      rw [skipSpaces_cons_of_not _ (by decide)]
      rw [if_pos (by simp)]
      simp only [List.tail_cons]
      rw [parseVal_cons_space f _ (by decide)]
      rw [ihV v rest (by omega) hrest]
      rfl
    · intro xs rest hlen
      cases xs with
      | nil =>
        show parseArrTail (f + 1) (']' :: rest) = some ([], rest)
        simp [parseArrTail, skipSpaces, List.dropWhile_cons, isSpaceChar]
      | cons y ys =>
        have hD : dumpArrRest (y :: ys) ++ ']' :: rest =
            ',' :: ' ' :: (dumpVal y ++ (dumpArrRest ys ++ ']' :: rest)) := by
          rw [dumpArrRest]
          simp
        rw [dumpArrRest] at hlen
        simp only [List.length_cons, List.length_append] at hlen
        rw [hD]
        simp only [parseArrTail]
        rw [skipSpaces_cons_of_not _ (by decide)]
        rw [if_neg (by simp), if_pos (by simp)]
        simp only [List.tail_cons]
        rw [parseVal_cons_space f _ (by decide)]
        rw [ihV y _ (by omega) (goodRest_dumpArrRest ys rest)]
        simp only [Option.pure_def, Option.bind_eq_bind, Option.some_bind]
        rw [ihA ys rest (by omega)]
        rfl
    · intro fs rest hlen
      cases fs with
      | nil =>
        show parseObjTail (f + 1) ('\x7d' :: rest) = some ([], rest)
        simp [parseObjTail, skipSpaces, List.dropWhile_cons, isSpaceChar]
      | cons g gs =>
        obtain ⟨k, v⟩ := g
        have hD : dumpObjRest ((k, v) :: gs) ++ '\x7d' :: rest =
            ',' :: ' ' :: (dumpField (k, v) ++ (dumpObjRest gs ++ '\x7d' :: rest)) := by
          rw [dumpObjRest]
          simp
        rw [dumpObjRest] at hlen
        simp only [List.length_cons, List.length_append] at hlen
        rw [hD]
        simp only [parseObjTail]
        rw [skipSpaces_cons_of_not _ (by decide)]
        rw [if_neg (by simp), if_pos (by simp)]
        simp only [List.tail_cons]
        rw [parseField_cons_space f _ (by decide)]
        rw [ihF k v _ (by omega) (goodRest_dumpObjRest gs rest)]
        simp only [Option.pure_def, Option.bind_eq_bind, Option.some_bind]
        rw [ihO gs rest (by omega)]
        rfl

theorem Json.parse_dumps (v : JVal) : Json.parse (Json.dumps v) = some v := by
  have hmain := (parse_dump_all ((dumpVal v).length + 1)).1 v [] (by omega) goodRest_nil
  rw [List.append_nil] at hmain
  show (match parseVal ((dumpVal v).length + 1) (dumpVal v) with
    | some (w, rest) => if skipSpaces rest = [] then some w else none
    | none => none) = some v
  rw [hmain]
  rfl

theorem hexDigitChar_ne_nl : ∀ d, d < 16 → hexDigitChar d ≠ '\n' := by decide

theorem hex4_no_nl (n : Nat) : ∀ x ∈ hex4 n, x ≠ '\n' := by
  intro x hx
  simp [hex4] at hx
  rcases hx with rfl | rfl | rfl | rfl
  all_goals exact hexDigitChar_ne_nl _ (Nat.mod_lt _ (by omega))

theorem escapeChar_no_nl (c : Char) : ∀ x ∈ escapeChar c, x ≠ '\n' := by
  intro x hx
  rw [escapeChar] at hx
  split_ifs at hx with h1 h2 h3 h4 h5 h6 h7 h8
  · simp at hx; rcases hx with rfl | rfl
    all_goals decide
  · simp at hx; subst hx; decide
  · simp at hx; rcases hx with rfl | rfl
    all_goals decide
  · simp at hx; rcases hx with rfl | rfl
    all_goals decide
  · simp at hx; rcases hx with rfl | rfl
    all_goals decide
  · simp at hx; rcases hx with rfl | rfl
    all_goals decide
  · simp at hx; rcases hx with rfl | rfl
    all_goals decide
  · rw [uEscape] at hx
    split_ifs at hx
    · rcases List.mem_cons.mp hx with rfl | h
      · decide
      · rcases List.mem_cons.mp h with rfl | h2
        · decide
        · exact hex4_no_nl _ x h2
    · rcases List.mem_append.mp hx with h | h
      · rcases List.mem_cons.mp h with rfl | h2
        · decide
        · rcases List.mem_cons.mp h2 with rfl | h3
          · decide
          · exact hex4_no_nl _ x h3
      · rcases List.mem_cons.mp h with rfl | h2
        · decide
        · rcases List.mem_cons.mp h2 with rfl | h3
          · decide
          · exact hex4_no_nl _ x h3
  · simp at hx
    subst hx
    intro hc
    subst hc
    simp at h5

theorem escapeList_no_nl (l : List Char) : ∀ x ∈ escapeList l, x ≠ '\n' := by
  induction l with
  | nil => intro x hx; simp [escapeList] at hx
  | cons c cs ih =>
    intro x hx
    rw [escapeList] at hx
    rcases List.mem_append.mp hx with h | h
    · exact escapeChar_no_nl c x h
    · exact ih x h

theorem natDigits_no_nl (n : Nat) : ∀ x ∈ natDigits n, x ≠ '\n' := by
  intro x hx
  obtain ⟨d, hd, rfl⟩ := (natDigits_sound n).2.1 x hx
  exact (digitChar_facts d hd).2.2.2.2.2

theorem intDigits_no_nl (n : Int) : ∀ x ∈ intDigits n, x ≠ '\n' := by
  intro x hx
  rw [intDigits] at hx
  split_ifs at hx
  · rcases List.mem_cons.mp hx with rfl | h
    · decide
    · exact natDigits_no_nl _ x h
  · exact natDigits_no_nl _ x hx

theorem dump_no_nl_all :
    (∀ v, ∀ x ∈ dumpVal v, x ≠ '\n') ∧
    (∀ gs, ∀ x ∈ dumpObjRest gs, x ≠ '\n') ∧
    (∀ g, ∀ x ∈ dumpField g, x ≠ '\n') ∧
    (∀ ys, ∀ x ∈ dumpArrRest ys, x ≠ '\n') := by
  refine dumpVal.mutual_induct
    (fun v => ∀ x ∈ dumpVal v, x ≠ '\n')
    (fun gs => ∀ x ∈ dumpObjRest gs, x ≠ '\n')
    (fun g => ∀ x ∈ dumpField g, x ≠ '\n')
    (fun ys => ∀ x ∈ dumpArrRest ys, x ≠ '\n')
    ?_ ?_ ?_ ?_ ?_ ?_ ?_ ?_ ?_ ?_ ?_ ?_ ?_ ?_
  · intro x hx
    rw [dumpVal] at hx
    simp at hx
    rcases hx with rfl | rfl | rfl <;> decide
  · intro x hx
    rw [dumpVal] at hx
    simp at hx
    rcases hx with rfl | rfl | rfl | rfl <;> decide
  · intro x hx
    rw [dumpVal] at hx
    simp at hx
    rcases hx with rfl | rfl | rfl | rfl | rfl <;> decide
  · intro n x hx
    rw [dumpVal] at hx
    exact intDigits_no_nl n x hx
  · intro s x hx
    rw [dumpVal] at hx
    rcases List.mem_cons.mp hx with rfl | h
    · decide
    · rcases List.mem_append.mp h with h2 | h2
      · exact escapeList_no_nl s.data x h2
      · simp at h2; subst h2; decide
  · intro x hx
    rw [dumpVal] at hx
    simp at hx
    rcases hx with rfl | rfl <;> decide
  · intro y ys ihy ihys x hx
    rw [dumpVal] at hx
    rcases List.mem_cons.mp hx with rfl | h
    · decide
    · rcases List.mem_append.mp h with h2 | h2
      · rcases List.mem_append.mp h2 with h3 | h3
        · exact ihy x h3
        · exact ihys x h3
      · simp at h2; subst h2; decide
  · intro x hx
    rw [dumpVal] at hx
    simp at hx
    rcases hx with rfl | rfl <;> decide
  · intro g gs ihg ihgs x hx
    rw [dumpVal] at hx
    rcases List.mem_cons.mp hx with rfl | h
    · decide
    · rcases List.mem_append.mp h with h2 | h2
      · rcases List.mem_append.mp h2 with h3 | h3
        · exact ihg x h3
        · exact ihgs x h3
      · simp at h2; subst h2; decide
  · intro x hx
    rw [dumpArrRest] at hx
    simp at hx
  · intro y ys ihy ihys x hx
    rw [dumpArrRest] at hx
    rcases List.mem_cons.mp hx with rfl | h
    · decide
    · rcases List.mem_cons.mp h with rfl | h2
      · decide
      · rcases List.mem_append.mp h2 with h3 | h3
        · exact ihy x h3
        · exact ihys x h3
  · intro x hx
    rw [dumpObjRest] at hx
    simp at hx
  · intro g gs ihg ihgs x hx
    rw [dumpObjRest] at hx
    rcases List.mem_cons.mp hx with rfl | h
    · decide
    · rcases List.mem_cons.mp h with rfl | h2
      · decide
      · rcases List.mem_append.mp h2 with h3 | h3
        · exact ihg x h3
        · exact ihgs x h3
  · intro k v ihv x hx
    rw [dumpField] at hx
    rcases List.mem_cons.mp hx with rfl | h
    · decide
    · rcases List.mem_append.mp h with h2 | h2
      · exact escapeList_no_nl k.data x h2
      · rcases List.mem_cons.mp h2 with rfl | h3
        · decide
        · rcases List.mem_cons.mp h3 with rfl | h4
          · decide
          · rcases List.mem_cons.mp h4 with rfl | h5
            · decide
            · exact ihv x h5

theorem Json.dumps_single_line (v : JVal) : ∀ x ∈ (Json.dumps v).data, x ≠ '\n' :=
  dump_no_nl_all.1 v

theorem exbind_ok {ε α β : Type} {x : Except ε α} {f : α → Except ε β} {b : β}
    (h : (x >>= f) = .ok b) : ∃ a, x = .ok a ∧ f a = .ok b :=
  (exbind_ok_iff x f b).mp h

theorem exok_bind {ε α β : Type} (a : α) (f : α → Except ε β) :
    ((Except.ok a : Except ε α) >>= f) = f a := rfl

theorem expure_eq_ok {ε α : Type} (a : α) : (pure a : Except ε α) = .ok a := rfl

theorem process_ok_parts {td : JVal} {ip ic : Bool} {cat : CatalogSource} {ex : TrainingExample}
    (hok : process_session_turn td ip ic cat = .ok ex) :
    ∃ sys tools messages msgParts outputContent,
      turn_enhanced_system td ip = .ok sys ∧
      turn_effective_tools td ic cat = .ok tools ∧
      turn_messages td = .ok messages ∧
      turn_msg_parts td = .ok msgParts ∧
      turn_response_content td = .ok outputContent ∧
      build_msg_parts messages = .ok msgParts ∧
      ex.input = String.intercalate "\n\n" (build_input_parts sys tools msgParts) ∧
      ex.output = formatOutput outputContent ∧
      ex.metadata.has_tools = !jIsNull tools ∧
      ex.metadata.num_messages = messages.length ∧
      ex.metadata.response_type = responseType outputContent := by
  rw [process_session_turn] at hok
  obtain ⟨request, hreq, hok⟩ := exbind_ok hok
  obtain ⟨response, hresp, hok⟩ := exbind_ok hok
  obtain ⟨sysV, hsysV, hok⟩ := exbind_ok hok
  obtain ⟨sysRaw, hsysRaw, hok⟩ := exbind_ok hok
  obtain ⟨tools, htools, hok⟩ := exbind_ok hok
  obtain ⟨messagesV, hmsgV, hok⟩ := exbind_ok hok
  obtain ⟨messages, hmsg, hok⟩ := exbind_ok hok
  obtain ⟨msgParts, hparts, hok⟩ := exbind_ok hok
  obtain ⟨outputContent, hcontent, hok⟩ := exbind_ok hok
  simp only [expure_eq_ok, Except.ok.injEq] at hok
  refine ⟨inject_system_additions sysRaw ip, tools, messages, msgParts, outputContent,
    ?_, ?_, ?_, ?_, ?_, hparts, ?_, ?_, ?_, ?_, ?_⟩
  · simp only [turn_enhanced_system, hreq, exok_bind, hsysV, hsysRaw, expure_eq_ok]
  · simp only [turn_effective_tools, hreq, exok_bind, htools]
  · simp only [turn_messages, hreq, exok_bind, hmsgV, hmsg]
  · simp only [turn_msg_parts, hreq, exok_bind, hmsgV, hmsg, hparts]
  · simp only [turn_response_content, hresp, exok_bind, hcontent]
  · rw [← hok]
  · rw [← hok]
  · rw [← hok]
  · rw [← hok]
  · rw [← hok]

/-!
Claim theorems.
-/

/-- C1: For every session turn whose response content is a sequence
(tool-call form), `process_session_turn` sets `metadata.response_type`
to `"tool_calls"` and produces as output that sequence serialized as a
single-line structured-document string with no indentation — it
contains no newline, and parsing it back yields a sequence structurally
equal to the original, with element order and every field preserved. -/
theorem c1_tool_calls_roundtrip (td : JVal) (ip ic : Bool) (cat : CatalogSource)
    (ex : TrainingExample) (xs : List JVal)
    (hok : process_session_turn td ip ic cat = .ok ex)
    (hc : turn_response_content td = .ok (.arr xs)) :
    ex.metadata.response_type = "tool_calls" ∧
    ex.output = .str (Json.dumps (.arr xs)) ∧
    (∀ x ∈ (Json.dumps (.arr xs)).data, x ≠ '\n') ∧
    Json.parse (Json.dumps (.arr xs)) = some (.arr xs) := by
  obtain ⟨sys, tools, messages, msgParts, oc, hsys, htools, hmsgs, hparts, hcontent, hbuild,
    hin, hout, hht, hnm, hrt⟩ := process_ok_parts hok
  have hoc : JVal.arr xs = oc := by
    have := hc.symm.trans hcontent
    simpa using this
  subst hoc
  refine ⟨?_, ?_, Json.dumps_single_line _, Json.parse_dumps _⟩
  · rw [hrt]; rfl
  · rw [hout]; rfl

/-- C1 witness: the theorem applied to Scenario C's turn, whose
response is a one-element tool-call sequence. -/
theorem c1_tool_calls_roundtrip_witness :
    process_session_turn turnCalls false false (.ok .null) = .ok callsExample ∧
    turn_response_content turnCalls = .ok (.arr callsSeq) ∧
    (callsExample.metadata.response_type = "tool_calls" ∧
      callsExample.output = .str (Json.dumps (.arr callsSeq)) ∧
      (∀ x ∈ (Json.dumps (.arr callsSeq)).data, x ≠ '\n') ∧
      Json.parse (Json.dumps (.arr callsSeq)) = some (.arr callsSeq)) :=
  ⟨rfl, rfl, c1_tool_calls_roundtrip turnCalls false false (.ok .null) callsExample callsSeq
    rfl rfl⟩

/-- C2: For every session turn whose response content is a scalar
string, `process_session_turn` sets `metadata.response_type` to
`"text"` and the example's output is that string verbatim. -/
theorem c2_text_response_verbatim (td : JVal) (ip ic : Bool) (cat : CatalogSource)
    (ex : TrainingExample) (s : String)
    (hok : process_session_turn td ip ic cat = .ok ex)
    (hc : turn_response_content td = .ok (.str s)) :
    ex.output = .str s ∧ ex.metadata.response_type = "text" := by
  obtain ⟨sys, tools, messages, msgParts, oc, hsys, htools, hmsgs, hparts, hcontent, hbuild,
    hin, hout, hht, hnm, hrt⟩ := process_ok_parts hok
  have hoc : JVal.str s = oc := by
    have := hc.symm.trans hcontent
    simpa using this
  subst hoc
  exact ⟨by rw [hout]; rfl, by rw [hrt]; rfl⟩

/-- C2 witness: the theorem applied to Scenario A's turn, whose
response content is the scalar string "Hi there!". -/
theorem c2_text_response_verbatim_witness :
    process_session_turn turnText false false (.ok .null) = .ok textExample ∧
    turn_response_content turnText = .ok (.str "Hi there!") ∧
    (textExample.output = .str "Hi there!" ∧ textExample.metadata.response_type = "text") :=
  ⟨rfl, rfl, c2_text_response_verbatim turnText false false (.ok .null) textExample
    "Hi there!" rfl rfl⟩

/-- C10: For every session turn whose response object is present but
has no content field, `process_session_turn` does not signal the
missing field: the output defaults to the empty string and
`metadata.response_type` is `"text"`. -/
theorem c10_missing_content_defaults (td : JVal) (ip ic : Bool) (cat : CatalogSource)
    (ex : TrainingExample) (fs : List (String × JVal))
    (hresp : pyIndex td "response" = .ok (.obj fs))
    (hnone : fs.lookup "content" = none)
    (hok : process_session_turn td ip ic cat = .ok ex) :
    ex.output = .str "" ∧ ex.metadata.response_type = "text" := by
  have hc : turn_response_content td = .ok (.str "") := by
    rw [turn_response_content, hresp, exok_bind, pyGet, hnone]
    rfl
  exact c2_text_response_verbatim td ip ic cat ex "" hok hc

/-- C10 witness: the theorem applied to a turn whose response object
lacks a content field; processing succeeds and defaults the output. -/
theorem c10_missing_content_defaults_witness :
    pyIndex turnNoContent "response" = .ok (.obj [("role", .str "assistant")]) ∧
    ([(("role" : String), JVal.str "assistant")].lookup "content" = none) ∧
    process_session_turn turnNoContent false false (.ok .null) = .ok noContentExample ∧
    (noContentExample.output = .str "" ∧ noContentExample.metadata.response_type = "text") :=
  ⟨rfl, rfl, rfl, c10_missing_content_defaults turnNoContent false false (.ok .null)
    noContentExample [("role", .str "assistant")] rfl rfl rfl⟩

theorem jIsNull_eq_false {t : JVal} (h : t ≠ .null) : jIsNull t = false := by
  cases t <;> first | exact absurd rfl h | rfl

/-- C4: The effective tools value of a turn: with catalog injection on
and a null/absent turn tools value, the loaded catalogue is used; a
non-null turn-supplied tools value is never overridden, whatever the
flag; with injection off, the turn's value (null included) is kept. -/
theorem c4_tools_resolution (request : JVal) (cat : CatalogSource) (t0 : JVal)
    (h : pyGet request "tools" .null = .ok t0) :
    (t0 = .null → effective_tools request true cat = load_tool_catalogue cat) ∧
    (t0 ≠ .null → ∀ ic, effective_tools request ic cat = .ok t0) ∧
    effective_tools request false cat = .ok t0 := by
  refine ⟨?_, ?_, ?_⟩
  · intro hnull
    subst hnull
    rw [effective_tools, h, exok_bind]
    rfl
  · intro hnn ic
    rw [effective_tools, h, exok_bind, jIsNull_eq_false hnn]
    simp only [Bool.and_false, Bool.false_eq_true, if_false]
    rfl
  · rw [effective_tools, h, exok_bind]
    rfl

/-- C4 witness: the theorem applied to a request without tools (the
catalogue is attached) and to one with a non-null tools value (never
overridden). -/
theorem c4_tools_resolution_witness :
    pyGet (.obj []) "tools" .null = .ok .null ∧
    effective_tools (.obj []) true (.ok sampleCatalog) =
      load_tool_catalogue (.ok sampleCatalog) ∧
    pyGet (.obj [("tools", .str "x")]) "tools" .null = .ok (.str "x") ∧
    JVal.str "x" ≠ .null ∧
    effective_tools (.obj [("tools", .str "x")]) true (.ok sampleCatalog) = .ok (.str "x") ∧
    effective_tools (.obj []) false (.ok sampleCatalog) = .ok .null :=
  ⟨rfl,
   (c4_tools_resolution (.obj []) (.ok sampleCatalog) .null rfl).1 rfl,
   rfl,
   fun hn => JVal.noConfusion hn,
   (c4_tools_resolution (.obj [("tools", .str "x")]) (.ok sampleCatalog) (.str "x") rfl).2.1
     (fun hn => JVal.noConfusion hn) true,
   (c4_tools_resolution (.obj []) (.ok sampleCatalog) .null rfl).2.2⟩

/-- C5 counterexample: a turn whose own tools value is the empty
sequence.  The effective tools value is non-null (and `has_tools`
metadata is true), yet the input text contains no tools block, so the
claim "non-null effective tools implies a tools block" is false at
this input. -/
theorem c5_counterexample :
    turn_effective_tools turnEmptyTools false (.ok .null) = .ok (.arr []) ∧
    JVal.arr [] ≠ .null ∧
    process_session_turn turnEmptyTools false false (.ok .null) = .ok emptyToolsExample ∧
    emptyToolsExample.input = "<|system|>\n\n<|end|>" ∧
    containsChars emptyToolsExample.input.data "<|tools|>".data = false ∧
    emptyToolsExample.metadata.has_tools = true :=
  ⟨rfl, fun hn => JVal.noConfusion hn, rfl, rfl, rfl, rfl⟩

/-- C5 (amended): the input is the system block, then a tools block
exactly when the effective tools value is truthy (non-null and
non-empty: Python `if tools:`), then the message blocks — so a falsy
non-null tools value, such as an empty sequence, produces no tools
block even though it is non-null. -/
theorem c5_tools_block_iff_truthy (td : JVal) (ip ic : Bool) (cat : CatalogSource)
    (ex : TrainingExample) (et : JVal) (sys : String) (msgs : List String)
    (hok : process_session_turn td ip ic cat = .ok ex)
    (het : turn_effective_tools td ic cat = .ok et)
    (hsys : turn_enhanced_system td ip = .ok sys)
    (hmsgs : turn_msg_parts td = .ok msgs) :
    ex.input = String.intercalate "\n\n"
      (("<|system|>\n" ++ sys ++ "\n<|end|>") ::
        ((if jTruthy et then ["<|tools|>\n" ++ Json.dumpsIndent2 et ++ "\n<|end|>"] else []) ++
          msgs)) := by
  obtain ⟨sys2, tools2, messages2, msgParts2, oc, hsys2, htools2, hmsgs2, hparts2, hcontent2,
    hbuild2, hin, hout, hht, hnm, hrt⟩ := process_ok_parts hok
  have hs : sys = sys2 := by
    have := hsys.symm.trans hsys2
    simpa using this
  have ht : et = tools2 := by
    have := het.symm.trans htools2
    simpa using this
  have hm : msgs = msgParts2 := by
    have := hmsgs.symm.trans hparts2
    simpa using this
  subst hs
  subst ht
  subst hm
  rw [hin]
  rfl

/-- C5 witness: the amended theorem applied to a turn with a truthy
tools value; the tools block sits between the system block and the
(empty) message blocks. -/
theorem c5_tools_block_iff_truthy_witness :
    process_session_turn turnWithTools false false (.ok .null) = .ok withToolsExample ∧
    turn_effective_tools turnWithTools false (.ok .null) = .ok (.arr [.str "t"]) ∧
    turn_enhanced_system turnWithTools false = .ok "" ∧
    turn_msg_parts turnWithTools = .ok [] ∧
    withToolsExample.input = String.intercalate "\n\n"
      (("<|system|>\n" ++ "" ++ "\n<|end|>") ::
        ((if jTruthy (.arr [.str "t"]) then
            ["<|tools|>\n" ++ Json.dumpsIndent2 (.arr [.str "t"]) ++ "\n<|end|>"]
          else []) ++ [])) :=
  ⟨rfl, rfl, rfl, rfl, c5_tools_block_iff_truthy turnWithTools false false (.ok .null)
    withToolsExample (.arr [.str "t"]) "" [] rfl rfl rfl rfl⟩

/-- C7: `inject_system_additions` with the flag off is the identity;
with the flag on it returns the fixed preamble text, a blank-line
separator, then the original prompt. -/
theorem c7_inject_preamble (s : String) :
    inject_system_additions s false = s ∧
    inject_system_additions s true = TOOL_PREAMBLE ++ "\n\n" ++ s :=
  ⟨rfl, rfl⟩

/-- C8: `metadata.num_messages` equals the length of the request's
messages sequence, however the injection flags and catalogue state are
set — two successful runs of the same turn always agree on it. -/
theorem c8_num_messages (td : JVal) (ip ic ip2 ic2 : Bool) (cat cat2 : CatalogSource)
    (ex ex2 : TrainingExample) (msgs : List JVal)
    (hok : process_session_turn td ip ic cat = .ok ex)
    (hok2 : process_session_turn td ip2 ic2 cat2 = .ok ex2)
    (hmsgs : turn_messages td = .ok msgs) :
    ex.metadata.num_messages = msgs.length ∧ ex2.metadata.num_messages = msgs.length := by
  obtain ⟨sys, tools, messages, msgParts, oc, hsys, htools, hmsg1, hparts, hcontent, hbuild,
    hin, hout, hht, hnm, hrt⟩ := process_ok_parts hok
  obtain ⟨sys2, tools2, messages2, msgParts2, oc2, hsys2, htools2, hmsg2, hparts2, hcontent2,
    hbuild2, hin2, hout2, hht2, hnm2, hrt2⟩ := process_ok_parts hok2
  have h1 : msgs = messages := by
    have := hmsgs.symm.trans hmsg1
    simpa using this
  have h2 : msgs = messages2 := by
    have := hmsgs.symm.trans hmsg2
    simpa using this
  subst h1
  rw [← h2] at hnm2
  exact ⟨hnm, hnm2⟩

/-- C8 witness: the theorem applied to Scenario A's turn under two
different flag settings; both runs report one message. -/
theorem c8_num_messages_witness :
    process_session_turn turnText false false (.ok .null) = .ok textExample ∧
    process_session_turn turnText false true (.ok .null) = .ok textExample ∧
    turn_messages turnText = .ok [.obj [("role", .str "user"), ("content", .str "Hello!")]] ∧
    (textExample.metadata.num_messages =
        [JVal.obj [("role", .str "user"), ("content", .str "Hello!")]].length ∧
      textExample.metadata.num_messages =
        [JVal.obj [("role", .str "user"), ("content", .str "Hello!")]].length) :=
  ⟨rfl, rfl, rfl, c8_num_messages turnText false false false true (.ok .null) (.ok .null)
    textExample textExample [.obj [("role", .str "user"), ("content", .str "Hello!")]]
    rfl rfl rfl⟩

/-- C3: in any stretch of a session file where every line either
processes cleanly or fails in one of the two recoverable ways
(unparseable line, missing key), the stream yields exactly the
examples of the valid lines in order, logs one warning per bad line
naming the file and its 1-based line number, and does not raise. -/
theorem c3_bad_lines_skipped (ip ic : Bool) (cat : CatalogSource) (fname : String)
    (lines : List String) (startNum : Nat)
    (h : ∀ l ∈ lines, (process_line ip ic cat l).isFatal = false) :
    process_file ip ic cat fname lines startNum =
      (lines.filterMap (fun l => (process_line ip ic cat l).toExample),
       (List.enumFrom startNum lines).filterMap
         (fun p => ((process_line ip ic cat p.2).toWarn).map (fun k => ⟨fname, p.1, k⟩)),
       none) := by
  induction lines generalizing startNum with
  | nil => rfl
  | cons l rest ih =>
    have hl := h l (by simp)
    have hrest : ∀ x ∈ rest, (process_line ip ic cat x).isFatal = false :=
      fun x hx => h x (by simp [hx])
    have ihr := ih (startNum + 1) hrest
    cases hout : process_line ip ic cat l with
    | skippedBlank =>
      rw [process_file, hout, ihr]
      simp [List.filterMap_cons, hout, LineOutcome.toExample, LineOutcome.toWarn,
        List.enumFrom]
    | emitted ex =>
      rw [process_file, hout, ihr]
      simp [List.filterMap_cons, hout, LineOutcome.toExample, LineOutcome.toWarn,
        List.enumFrom]
    | warned k =>
      rw [process_file, hout, ihr]
      simp [List.filterMap_cons, hout, LineOutcome.toExample, LineOutcome.toWarn,
        List.enumFrom]
    | fatal e =>
      rw [hout] at hl
      exact absurd hl (by simp [LineOutcome.isFatal])

/-- C3 witness: Scenario D's file — one valid line, one unparseable
line — yields exactly one example, logs exactly one warning naming the
file and line 2, and does not raise. -/
theorem c3_bad_lines_skipped_witness :
    (∀ l ∈ fileD.lines, (process_line false false (.ok .null) l).isFatal = false) ∧
    process_file false false (.ok .null) fileD.name fileD.lines 1 =
      (fileD.lines.filterMap (fun l => (process_line false false (.ok .null) l).toExample),
       (List.enumFrom 1 fileD.lines).filterMap
         (fun p => ((process_line false false (.ok .null) p.2).toWarn).map
           (fun k => ⟨fileD.name, p.1, k⟩)),
       none) ∧
    process_file false false (.ok .null) fileD.name fileD.lines 1 =
      ([textExample], [⟨"a_session.jsonl", 2, .invalidJson⟩], none) := by
  have hfatal : ∀ l ∈ fileD.lines, (process_line false false (.ok .null) l).isFatal = false := by
    intro l hl
    rcases List.mem_cons.mp hl with rfl | hl
    · rfl
    · rcases List.mem_cons.mp hl with rfl | hl
      · rfl
      · simp at hl
  exact ⟨hfatal,
    c3_bad_lines_skipped false false (.ok .null) fileD.name fileD.lines 1 hfatal, rfl⟩

/-- C6: behavior at the failing input.  With catalog injection
requested and a turn without tools, a catalogue file that exists but
is not parseable does not abort the load: the session line is skipped
with a warning that misattributes invalid JSON to that line, and the
stream continues.  Only a missing catalogue file aborts the stream
(as an uncaught file-not-found error, not a catalogue-specific
condition). -/
theorem c6_catalog_error_behavior :
    process_file true true .invalidJson "sessions.jsonl" [lineNeedsCatalog] 1 =
      ([], [⟨"sessions.jsonl", 1, .invalidJson⟩], none) ∧
    process_file true true .missingFile "sessions.jsonl" [lineNeedsCatalog] 1 =
      ([], [], some (.fileNotFound "tool_catalogue.json")) :=
  ⟨rfl, rfl⟩

/-- C9: a missing data directory aborts the load before any example
with the directory-not-found error; an existing directory where the
pattern matches no file aborts before any example with the
no-files-matched error; otherwise the resolved files are exactly the
matching files, sorted lexicographically by name. -/
theorem c9_loader_failures :
    (∀ (data_dir p : String) (ps : List String) (ip ic : Bool) (cat : CatalogSource),
      load_training_data none data_dir (p :: ps) ip ic cat =
        ([], [], some (.fileNotFound ("Data directory not found: " ++ data_dir)))) ∧
    (∀ (files : List SessionFile) (data_dir p : String) (ip ic : Bool) (cat : CatalogSource),
      (∀ f ∈ files, globMatch p f.name = false) →
      load_training_data (some files) data_dir [p] ip ic cat =
        ([], [],
         some (.valueError ("No files found matching pattern: " ++ p ++ " in " ++ data_dir)))) ∧
    (∀ (files : List SessionFile) (data_dir p : String) (out : List SessionFile),
      load_session_files (some files) data_dir p = .ok out →
      List.Sorted fileLe out ∧ out.Perm (files.filter (fun f => globMatch p f.name))) := by
  refine ⟨?_, ?_, ?_⟩
  · intro data_dir p ps ip ic cat
    rw [load_training_data, load_session_files]
  · intro files data_dir p ip ic cat hnone
    have hfil : files.filter (fun f => globMatch p f.name) = [] := by
      rw [List.filter_eq_nil_iff]
      intro f hf
      simp [hnone f hf]
    rw [load_training_data, load_session_files, hfil]
    rfl
  · intro files data_dir p out hout
    rw [load_session_files] at hout
    by_cases hemp : (files.filter (fun f => globMatch p f.name)).isEmpty
    · rw [if_pos hemp] at hout
      exact absurd hout (by simp)
    · rw [if_neg hemp] at hout
      have hout2 : List.insertionSort fileLe (files.filter (fun f => globMatch p f.name)) =
          out := by simpa using hout
      subst hout2
      exact ⟨List.sorted_insertionSort fileLe _, List.perm_insertionSort fileLe _⟩

/-- C9 witness: the theorem applied to a missing directory, to a
pattern matching nothing, and to a directory whose matching files come
back sorted. -/
theorem c9_loader_failures_witness :
    load_training_data none "data" ["*.jsonl"] false false (.ok .null) =
      ([], [], some (.fileNotFound "Data directory not found: data")) ∧
    (∀ f ∈ [(⟨"x.txt", []⟩ : SessionFile)], globMatch "*.jsonl" f.name = false) ∧
    load_training_data (some [⟨"x.txt", []⟩]) "data" ["*.jsonl"] false false (.ok .null) =
      ([], [], some (.valueError "No files found matching pattern: *.jsonl in data")) ∧
    load_session_files (some [⟨"b.jsonl", []⟩, ⟨"a.jsonl", []⟩]) "data" "*.jsonl" =
      .ok [⟨"a.jsonl", []⟩, ⟨"b.jsonl", []⟩] ∧
    (List.Sorted fileLe [(⟨"a.jsonl", []⟩ : SessionFile), ⟨"b.jsonl", []⟩] ∧
      List.Perm [(⟨"a.jsonl", []⟩ : SessionFile), ⟨"b.jsonl", []⟩]
        ([⟨"b.jsonl", []⟩, ⟨"a.jsonl", []⟩].filter
          (fun f => globMatch "*.jsonl" f.name))) := by
  have hmatch : ∀ f ∈ [(⟨"x.txt", []⟩ : SessionFile)], globMatch "*.jsonl" f.name = false := by
    intro f hf
    rcases List.mem_cons.mp hf with rfl | hf
    · rfl
    · simp at hf
  exact ⟨c9_loader_failures.1 "data" "*.jsonl" [] false false (.ok .null),
    hmatch,
    c9_loader_failures.2.1 [⟨"x.txt", []⟩] "data" "*.jsonl" false false (.ok .null) hmatch,
    rfl,
    c9_loader_failures.2.2 [⟨"b.jsonl", []⟩, ⟨"a.jsonl", []⟩] "data" "*.jsonl"
      [⟨"a.jsonl", []⟩, ⟨"b.jsonl", []⟩] rfl⟩
